import Mathlib

/-!
Shallow embedding of the `banking_transactions` ledger engine
(`src/engine.rs`, `src/errors.rs`).

Machine floats (`f64`) are modelled as exact rationals `ℚ`; the Rust
`f64::round` (round half away from zero) becomes `roundHalfAway`.  The
`HashMap`s backing the account registry and the transaction history are
modelled as association lists with entry-style lookup/insert, and the
`HashSet` of disputed transaction ids as a duplicate-free insertion list.
Fallible handlers return the (possibly partially mutated) ledger paired
with an optional error, mirroring Rust's in-place mutation where an early
`return Err` keeps any mutation already performed.
-/

namespace Banking

/-- `TransactionType` from `src/engine.rs`. -/
inductive TransactionType where
  | Deposit
  | Withdrawal
  | Dispute
  | Resolve
  | Chargeback
deriving DecidableEq

/-- `Transaction` from `src/engine.rs`: `type`, `client`, `tx`, `amount`. -/
structure Transaction where
  type : TransactionType
  client : Nat
  tx : Nat
  amount : Option ℚ
deriving DecidableEq

/-- `Account` from `src/engine.rs`. -/
structure Account where
  client : Nat
  available : ℚ
  held : ℚ
  total : ℚ
  locked : Bool
deriving DecidableEq

/-- `PRECISION` from `src/engine.rs`. -/
def PRECISION : ℚ := 10000

/-- Rust `f64::round`: nearest integer, ties away from zero. -/
def roundHalfAway (q : ℚ) : ℤ :=
  if 0 ≤ q then ⌊q + 1/2⌋ else ⌈q - 1/2⌉

/-- `Account::round`: `(value * PRECISION).round() / PRECISION`. -/
def Account.round (value : ℚ) : ℚ :=
  (roundHalfAway (value * PRECISION) : ℚ) / PRECISION

/-- `Account::new_account`. -/
def Account.new_account (client : Nat) (balance : ℚ) : Account :=
  let balance := Account.round balance
  { client := client, available := balance, held := 0, total := balance,
    locked := false }

/-- `Account::lock`. -/
def Account.lock (a : Account) : Account := { a with locked := true }

/-- `Account::calculate_total`: note the subtraction, exactly as in the
source (`self.available - self.held`). -/
def Account.calculate_total (a : Account) : ℚ := a.available - a.held

/-- `Account::deposit_funds`: rounds the new `available`, then recomputes
`total` from `calculate_total` (which subtracts `held`). -/
def Account.deposit_funds (a : Account) (amount : ℚ) : Account :=
  let a := { a with available := Account.round (a.available + amount) }
  { a with total := Account.round a.calculate_total }

/-- `Account::withdraw_funds`. -/
def Account.withdraw_funds (a : Account) (amount : ℚ) : Account :=
  let a := { a with available := Account.round (a.available - amount) }
  { a with total := Account.round a.calculate_total }

/-- `DuplicateTransactionError` from `src/errors.rs`. -/
structure DuplicateTransactionError where
  tx_id : Nat
deriving DecidableEq

/-- `AccountError` from `src/errors.rs`. -/
inductive AccountError where
  | AccountLocked (id : Nat)
  | NoSuchAccount (id : Nat)
deriving DecidableEq

/-- `DepositError` from `src/errors.rs`. -/
inductive DepositError where
  | AmountRequired
  | AccountLocked
  | DuplicateTx (err : DuplicateTransactionError)
  | NegativeDeposit
deriving DecidableEq

/-- `WithdrawalError` from `src/errors.rs`. -/
inductive WithdrawalError where
  | AmountRequired
  | AccountLocked
  | InsufficientFunds (wanted had : ℚ)
  | NoSuchAccount (client : Nat)
  | DuplicateTx (err : DuplicateTransactionError)
  | NegativeWithdrawal
deriving DecidableEq

/-- `DisputeError` from `src/errors.rs`. -/
inductive DisputeError where
  | AccountLocked
  | NoSuchAccount (id : Nat)
  | AmountRequired
deriving DecidableEq

/-- `ResolveError` from `src/errors.rs`. -/
inductive ResolveError where
  | AccountLocked
  | NoSuchAccount (id : Nat)
  | AmountRequired
deriving DecidableEq

/-- `ChargebackError` from `src/errors.rs`. -/
inductive ChargebackError where
  | AccountLocked
  | NoSuchAccount (id : Nat)
  | AmountRequired
deriving DecidableEq

/-- `impl From<AccountError> for DisputeError`. -/
def AccountError.toDisputeError : AccountError → DisputeError
  | .AccountLocked _ => .AccountLocked
  | .NoSuchAccount id => .NoSuchAccount id

/-- `impl From<AccountError> for ResolveError`. -/
def AccountError.toResolveError : AccountError → ResolveError
  | .AccountLocked _ => .AccountLocked
  | .NoSuchAccount id => .NoSuchAccount id

/-- `impl From<AccountError> for ChargebackError`. -/
def AccountError.toChargebackError : AccountError → ChargebackError
  | .AccountLocked _ => .AccountLocked
  | .NoSuchAccount id => .NoSuchAccount id

/-- The `Box<dyn Error>` returned by `Ledger::process_transaction`,
modelled as a tagged union of the handler error types. -/
inductive LedgerError where
  | deposit (e : DepositError)
  | withdrawal (e : WithdrawalError)
  | dispute (e : DisputeError)
  | resolve (e : ResolveError)
  | chargeback (e : ChargebackError)
deriving DecidableEq

/-- `HashMap::get` over an association list keyed by `Nat`. -/
def mapLookup {α : Type} : List (Nat × α) → Nat → Option α
  | [], _ => none
  | (k, v) :: rest, key => if k = key then some v else mapLookup rest key

/-- Writing through a `HashMap` entry: replace the binding at an existing
key, otherwise append a fresh binding. -/
def mapInsert {α : Type} : List (Nat × α) → Nat → α → List (Nat × α)
  | [], key, v => [(key, v)]
  | (k, v') :: rest, key, v =>
    if k = key then (k, v) :: rest else (k, v') :: mapInsert rest key v

/-- `HashSet::insert`. -/
def setInsert (s : List Nat) (x : Nat) : List Nat :=
  if x ∈ s then s else s ++ [x]

/-- `HashSet::remove`. -/
def setRemove (s : List Nat) (x : Nat) : List Nat :=
  s.filter (fun y => y ≠ x)

/-- `Ledger` from `src/engine.rs`. -/
structure Ledger where
  accounts : List (Nat × Account)
  transactions : List (Nat × Transaction)
  disputed_transactions : List Nat
deriving DecidableEq

/-- `Ledger::default()`. -/
def Ledger.empty : Ledger := ⟨[], [], []⟩

/-- Look up a client's account in the registry. -/
def accountAt (l : Ledger) (c : Nat) : Option Account := mapLookup l.accounts c

/-- `Ledger::save_transaction`: reject an id already present in the
history, otherwise record the transaction. -/
def Ledger.save_transaction (l : Ledger) (t : Transaction) :
    Except DuplicateTransactionError Ledger :=
  match mapLookup l.transactions t.tx with
  | some _ => .error ⟨t.tx⟩
  | none => .ok { l with transactions := mapInsert l.transactions t.tx t }

/-- `Ledger::get_account_entry`: an existing unlocked account, else
`AccountLocked`/`NoSuchAccount`. -/
def Ledger.get_account_entry (l : Ledger) (id : Nat) :
    Except AccountError Account :=
  match mapLookup l.accounts id with
  | some account =>
    if account.locked then .error (.AccountLocked id) else .ok account
  | none => .error (.NoSuchAccount id)

/-- `Ledger::process_deposit`. -/
def Ledger.process_deposit (l : Ledger) (t : Transaction) :
    Ledger × Option DepositError :=
  match t.amount with
  | none => (l, some .AmountRequired)
  | some amount =>
    if amount < 0 then (l, some .NegativeDeposit)
    else
      match l.save_transaction t with
      | .error e => (l, some (.DuplicateTx e))
      | .ok l =>
        match mapLookup l.accounts t.client with
        | some account =>
          if account.locked then (l, some .AccountLocked)
          else
            ({ l with accounts := mapInsert l.accounts t.client (account.deposit_funds amount) }, none)
        | none =>
          ({ l with accounts := mapInsert l.accounts t.client (Account.new_account t.client amount) }, none)

/-- `Ledger::process_withdrawal`. -/
def Ledger.process_withdrawal (l : Ledger) (t : Transaction) :
    Ledger × Option WithdrawalError :=
  match t.amount with
  | none => (l, some .AmountRequired)
  | some amount =>
    if amount < 0 then (l, some .NegativeWithdrawal)
    else
      match l.save_transaction t with
      | .error e => (l, some (.DuplicateTx e))
      | .ok l =>
        match mapLookup l.accounts t.client with
        | some account =>
          if account.locked then (l, some .AccountLocked)
          else if account.available - amount < 0 then
            (l, some (.InsufficientFunds amount account.available))
          else
            ({ l with accounts := mapInsert l.accounts t.client (account.withdraw_funds amount) }, none)
        | none => (l, some (.NoSuchAccount t.client))

/-- `Ledger::process_dispute`: looks the referenced transaction up in the
history (no disputed-set check), moves its amount from `available` to
`held` without rounding, and inserts the id into the disputed set. -/
def Ledger.process_dispute (l : Ledger) (t : Transaction) :
    Ledger × Option DisputeError :=
  match mapLookup l.transactions t.tx with
  | none => (l, none)
  | some tx =>
    match tx.amount with
    | none => (l, some .AmountRequired)
    | some amount =>
      match l.get_account_entry t.client with
      | .error e => (l, some e.toDisputeError)
      | .ok account =>
        ({ l with
             accounts :=
               mapInsert l.accounts t.client
                 { account with
                     available := account.available - amount,
                     held := account.held + amount },
             disputed_transactions :=
               setInsert l.disputed_transactions t.tx },
         none)

/-- `Ledger::process_resolve`: skipped when the referenced id is absent
from the history or not currently disputed; otherwise moves the amount
back from `held` to `available` (unrounded) and removes the id from the
disputed set. -/
def Ledger.process_resolve (l : Ledger) (t : Transaction) :
    Ledger × Option ResolveError :=
  match mapLookup l.transactions t.tx with
  | none => (l, none)
  | some tx =>
    if t.tx ∈ l.disputed_transactions then
      match tx.amount with
      | none => (l, some .AmountRequired)
      | some amount =>
        match l.get_account_entry t.client with
        | .error e => (l, some e.toResolveError)
        | .ok account =>
          ({ l with
               accounts :=
                 mapInsert l.accounts t.client
                   { account with
                       available := account.available + amount,
                       held := account.held - amount },
               disputed_transactions :=
                 setRemove l.disputed_transactions t.tx },
           none)
    else (l, none)

/-- `Ledger::process_chargeback`: skipped when the referenced id is absent
or undisputed; otherwise `held -= amount`, `total = available - held`
(with the updated `held`), and the account is locked.  The disputed set is
left untouched. -/
def Ledger.process_chargeback (l : Ledger) (t : Transaction) :
    Ledger × Option ChargebackError :=
  match mapLookup l.transactions t.tx with
  | none => (l, none)
  | some tx =>
    if t.tx ∈ l.disputed_transactions then
      match tx.amount with
      | none => (l, some .AmountRequired)
      | some amount =>
        match l.get_account_entry t.client with
        | .error e => (l, some e.toChargebackError)
        | .ok account =>
          let account := { account with held := account.held - amount }
          let account :=
            { account with total := account.available - account.held }
          let account := account.lock
          ({ l with accounts := mapInsert l.accounts t.client account },
           none)
    else (l, none)

/-- `Ledger::process_transaction`: dispatch on the transaction type; an
`InsufficientFunds` withdrawal error is caught and logged, every other
handler error is propagated. -/
def Ledger.process_transaction (l : Ledger) (t : Transaction) :
    Ledger × Option LedgerError :=
  match t.type with
  | .Deposit =>
    let r := l.process_deposit t
    (r.1, r.2.map .deposit)
  | .Withdrawal =>
    let r := l.process_withdrawal t
    match r.2 with
    | some (.InsufficientFunds _ _) => (r.1, none)
    | some e => (r.1, some (.withdrawal e))
    | none => (r.1, none)
  | .Dispute =>
    let r := l.process_dispute t
    (r.1, r.2.map .dispute)
  | .Resolve =>
    let r := l.process_resolve t
    (r.1, r.2.map .resolve)
  | .Chargeback =>
    let r := l.process_chargeback t
    (r.1, r.2.map .chargeback)

/-- `Ledger::process_transactions`: fold a list of transactions through
the engine, halting at the first propagated error. -/
def Ledger.process_transactions (l : Ledger) :
    List Transaction → Ledger × Option LedgerError
  | [] => (l, none)
  | t :: rest =>
    let r := l.process_transaction t
    match r.2 with
    | some e => (r.1, some e)
    | none => r.1.process_transactions rest

/-- A rational is an exact multiple of `1/10,000`, i.e. representable with
four decimal digits. -/
def isTenThousandth (q : ℚ) : Prop := ∃ n : ℤ, q = (n : ℚ) / PRECISION

/-- The additive balance invariant the specification demands of every
account in the registry. -/
def totalInvariantHolds (l : Ledger) : Prop :=
  ∀ p ∈ l.accounts, (p.2).total = (p.2).available + (p.2).held

/-! ### Concrete transactions and ledger states

A small family of concrete transactions and the intermediate ledger
states they produce, used to evaluate the engine on explicit inputs. -/

/-- Deposit of 10 for client 1, transaction id 1. -/
def dep1 : Transaction := ⟨.Deposit, 1, 1, some 10⟩

/-- Dispute by client 1 referencing transaction id 1. -/
def dis1 : Transaction := ⟨.Dispute, 1, 1, none⟩

/-- Deposit of 10 for client 1, transaction id 2. -/
def dep2 : Transaction := ⟨.Deposit, 1, 2, some 10⟩

/-- Chargeback by client 1 referencing transaction id 1. -/
def cb1 : Transaction := ⟨.Chargeback, 1, 1, none⟩

/-- State after `dep1`. -/
def L1 : Ledger := ⟨[(1, ⟨1, 10, 0, 10, false⟩)], [(1, dep1)], []⟩

/-- State after `dep1, dis1`. -/
def L2 : Ledger := ⟨[(1, ⟨1, 0, 10, 10, false⟩)], [(1, dep1)], [1]⟩

/-- State after `dep1, dis1, dep2`: note `total = 0` even though
`available = held = 10`, because `calculate_total` subtracts `held`. -/
def L3 : Ledger := ⟨[(1, ⟨1, 10, 10, 0, false⟩)], [(1, dep1), (2, dep2)], [1]⟩

/-- State after `dep1, dis1, dep2, cb1`: locked, and id 1 still disputed. -/
def L4 : Ledger := ⟨[(1, ⟨1, 10, 0, 10, true⟩)], [(1, dep1), (2, dep2)], [1]⟩

/-- State after `dep1, dis1, dis1`: the second dispute is applied again. -/
def L5 : Ledger := ⟨[(1, ⟨1, -10, 20, 10, false⟩)], [(1, dep1)], [1]⟩

/-- Deposit with more than four decimal digits (8.675309) for client 1. -/
def jdep : Transaction := ⟨.Deposit, 1, 1, some (8675309/1000000)⟩

/-- State after `jdep`: the deposit is rounded to four digits. -/
def J1 : Ledger := ⟨[(1, ⟨1, 86753/10000, 0, 86753/10000, false⟩)], [(1, jdep)], []⟩

/-- State after `jdep, dis1`: the dispute moves the unrounded recorded
amount, leaving `available = -9/1000000`, finer than 1/10,000. -/
def J2 : Ledger :=
  ⟨[(1, ⟨1, -9/1000000, 8675309/1000000, 86753/10000, false⟩)], [(1, jdep)], [1]⟩

/-- Deposit of 5 for client 2, transaction id 2. -/
def dep2b : Transaction := ⟨.Deposit, 2, 2, some 5⟩

/-- Two clients, two recorded deposits, nothing disputed. -/
def W9 : Ledger :=
  ⟨[(1, ⟨1, 10, 0, 10, false⟩), (2, ⟨2, 5, 0, 5, false⟩)], [(1, dep1), (2, dep2b)], []⟩

/-- Dispute record whose `client` field (2) differs from the client (1) of
the transaction it references by id. -/
def dis9 : Transaction := ⟨.Dispute, 2, 1, none⟩

/-- One client holding 5 available, no recorded transactions. -/
def W5 : Ledger := ⟨[(1, ⟨1, 5, 0, 5, false⟩)], [], []⟩

/-- Withdrawal of 10 by client 1, transaction id 7. -/
def wd5 : Transaction := ⟨.Withdrawal, 1, 7, some 10⟩

/-- A ledger whose only account is locked. -/
def W7 : Ledger := ⟨[(1, ⟨1, 3, 4, 7, true⟩)], [], []⟩

/-- Deposit of 10 by client 1, transaction id 9. -/
def dep7 : Transaction := ⟨.Deposit, 1, 9, some 10⟩

/-- Withdrawal of 10 naming the unknown client 5, transaction id 7. -/
def wd10 : Transaction := ⟨.Withdrawal, 5, 7, some 10⟩

/-- Resolve by client 1 referencing transaction id 1. -/
def res1 : Transaction := ⟨.Resolve, 1, 1, none⟩

/-- Deposit of 5 for client 1 reusing the already-recorded id 1. -/
def dup6 : Transaction := ⟨.Deposit, 1, 1, some 5⟩

/-- Withdrawal of 5 for client 1 reusing the already-recorded id 1. -/
def wdup6 : Transaction := ⟨.Withdrawal, 1, 1, some 5⟩

lemma PRECISION_ne_zero : (PRECISION : ℚ) ≠ 0 := by norm_num [PRECISION]

lemma roundHalfAway_intCast (n : ℤ) : roundHalfAway (n : ℚ) = n := by
  unfold roundHalfAway
  split
  · refine Int.floor_eq_iff.mpr ⟨?_, ?_⟩ <;> norm_num
  · refine Int.ceil_eq_iff.mpr ⟨?_, ?_⟩ <;> norm_num

/-- Evaluate `Account.round` at a value that is already an exact multiple
of `1/PRECISION`. -/
lemma Account.round_eq_of_mul (v : ℚ) (n : ℤ) (h : v * PRECISION = (n : ℚ)) :
    Account.round v = (n : ℚ) / PRECISION := by
  unfold Account.round
  rw [h, roundHalfAway_intCast]

/-- Evaluate `Account.round` at a nonnegative value by bracketing the
scaled value between consecutive integers. -/
lemma Account.round_eq_of_bounds (v : ℚ) (n : ℤ) (h0 : 0 ≤ v * PRECISION)
    (h1 : (n : ℚ) ≤ v * PRECISION + 1/2) (h2 : v * PRECISION + 1/2 < n + 1) :
    Account.round v = (n : ℚ) / PRECISION := by
  unfold Account.round roundHalfAway
  rw [if_pos h0, Int.floor_eq_iff.mpr ⟨h1, h2⟩]

lemma Account.round_zero : Account.round 0 = 0 := by
  rw [Account.round_eq_of_mul 0 0 (by norm_num)]
  norm_num

lemma Account.round_ten : Account.round 10 = 10 := by
  rw [Account.round_eq_of_mul 10 100000 (by norm_num [PRECISION])]
  norm_num [PRECISION]

lemma Account.round_jenny :
    Account.round (8675309/1000000) = 86753/10000 := by
  rw [Account.round_eq_of_bounds (8675309/1000000) 86753 (by norm_num [PRECISION])
    (by norm_num [PRECISION]) (by norm_num [PRECISION])]
  norm_num [PRECISION]

lemma Account.round_isTenThousandth (v : ℚ) :
    isTenThousandth (Account.round v) :=
  ⟨roundHalfAway (v * PRECISION), rfl⟩

lemma isTenThousandth_zero : isTenThousandth 0 :=
  ⟨0, by norm_num⟩

lemma Account.round_round (v : ℚ) :
    Account.round (Account.round v) = Account.round v := by
  conv_lhs => rw [Account.round]
  rw [Account.round, div_mul_cancel₀ _ PRECISION_ne_zero, roundHalfAway_intCast]

lemma mapLookup_mapInsert_self {α : Type} (m : List (Nat × α)) (k : Nat) (v : α) :
    mapLookup (mapInsert m k v) k = some v := by
  induction m with
  | nil => simp [mapInsert, mapLookup]
  | cons p rest ih =>
    obtain ⟨k', v'⟩ := p
    by_cases h : k' = k <;> simp [mapInsert, mapLookup, h, ih]

lemma mapLookup_mapInsert_ne {α : Type} (m : List (Nat × α)) (k c : Nat) (v : α)
    (h : k ≠ c) :
    mapLookup (mapInsert m k v) c = mapLookup m c := by
  induction m with
  | nil => simp [mapInsert, mapLookup, h]
  | cons p rest ih =>
    obtain ⟨k', v'⟩ := p
    by_cases h' : k' = k
    · subst h'
      simp [mapInsert, mapLookup, h, ih]
    · simp [mapInsert, mapLookup, h', ih]

/-! ### Concrete scenario evaluations -/

lemma step_dep1 : Ledger.empty.process_transaction dep1 = (L1, none) := by
  norm_num [Ledger.process_transaction, Ledger.process_deposit,
    Ledger.save_transaction, Ledger.empty, mapLookup, mapInsert,
    Account.new_account, Account.round_ten, dep1, L1]

lemma step_dis1 : L1.process_transaction dis1 = (L2, none) := by
  norm_num [Ledger.process_transaction, Ledger.process_dispute,
    Ledger.get_account_entry, mapLookup, mapInsert, setInsert,
    dis1, dep1, L1, L2]

lemma step_dep2 : L2.process_transaction dep2 = (L3, none) := by
  norm_num [Ledger.process_transaction, Ledger.process_deposit,
    Ledger.save_transaction, Account.deposit_funds, Account.calculate_total,
    mapLookup, mapInsert, Account.round_ten, Account.round_zero,
    dep2, dep1, L2, L3]

lemma step_cb1 : L3.process_transaction cb1 = (L4, none) := by
  norm_num [Ledger.process_transaction, Ledger.process_chargeback,
    Ledger.get_account_entry, Account.lock, mapLookup, mapInsert,
    cb1, dep1, dep2, L3, L4]

lemma step_dis1_again : L2.process_transaction dis1 = (L5, none) := by
  norm_num [Ledger.process_transaction, Ledger.process_dispute,
    Ledger.get_account_entry, mapLookup, mapInsert, setInsert,
    dis1, dep1, L2, L5]

lemma run_to_L2 : Ledger.empty.process_transactions [dep1, dis1] = (L2, none) := by
  simp [Ledger.process_transactions, step_dep1, step_dis1]

lemma step_jdep : Ledger.empty.process_transaction jdep = (J1, none) := by
  norm_num [Ledger.process_transaction, Ledger.process_deposit,
    Ledger.save_transaction, Ledger.empty, mapLookup, mapInsert,
    Account.new_account, Account.round_jenny, jdep, J1]

lemma step_jdis : J1.process_transaction dis1 = (J2, none) := by
  norm_num [Ledger.process_transaction, Ledger.process_dispute,
    Ledger.get_account_entry, mapLookup, mapInsert, setInsert,
    dis1, jdep, J1, J2]

lemma run_to_J2 : Ledger.empty.process_transactions [jdep, dis1] = (J2, none) := by
  simp [Ledger.process_transactions, step_jdep, step_jdis]

lemma run_to_L3 :
    Ledger.empty.process_transactions [dep1, dis1, dep2] = (L3, none) := by
  simp [Ledger.process_transactions, step_dep1, step_dis1, step_dep2]

/-! ### General behaviour lemmas -/

lemma dispute_success_state (l : Ledger) (t tx0 : Transaction) (a : ℚ) (acc : Account)
    (htype : t.type = .Dispute)
    (htx : mapLookup l.transactions t.tx = some tx0)
    (hamt : tx0.amount = some a)
    (hacc : mapLookup l.accounts t.client = some acc)
    (hunlocked : acc.locked = false) :
    l.process_transaction t =
      ({ l with
           accounts := mapInsert l.accounts t.client
             { acc with available := acc.available - a, held := acc.held + a },
           disputed_transactions := setInsert l.disputed_transactions t.tx }, none) := by
  simp [Ledger.process_transaction, htype, Ledger.process_dispute, htx, hamt,
    Ledger.get_account_entry, hacc, hunlocked]

lemma dispute_no_account_state (l : Ledger) (t tx0 : Transaction) (a : ℚ)
    (htype : t.type = .Dispute)
    (htx : mapLookup l.transactions t.tx = some tx0)
    (hamt : tx0.amount = some a)
    (hacc : mapLookup l.accounts t.client = none) :
    l.process_transaction t = (l, some (.dispute (.NoSuchAccount t.client))) := by
  simp [Ledger.process_transaction, htype, Ledger.process_dispute, htx, hamt,
    Ledger.get_account_entry, hacc, AccountError.toDisputeError]

lemma dispute_locked_state (l : Ledger) (t tx0 : Transaction) (a : ℚ) (acc : Account)
    (htype : t.type = .Dispute)
    (htx : mapLookup l.transactions t.tx = some tx0)
    (hamt : tx0.amount = some a)
    (hacc : mapLookup l.accounts t.client = some acc)
    (hlocked : acc.locked = true) :
    l.process_transaction t = (l, some (.dispute .AccountLocked)) := by
  simp [Ledger.process_transaction, htype, Ledger.process_dispute, htx, hamt,
    Ledger.get_account_entry, hacc, hlocked, AccountError.toDisputeError]

lemma chargeback_success_state (l : Ledger) (t tx0 : Transaction) (a : ℚ) (acc : Account)
    (htype : t.type = .Chargeback)
    (htx : mapLookup l.transactions t.tx = some tx0)
    (hamt : tx0.amount = some a)
    (hdis : t.tx ∈ l.disputed_transactions)
    (hacc : mapLookup l.accounts t.client = some acc)
    (hunlocked : acc.locked = false) :
    l.process_transaction t =
      ({ l with accounts := mapInsert l.accounts t.client ⟨acc.client,
           acc.available, acc.held - a, acc.available - (acc.held - a), true⟩ },
       none) := by
  simp [Ledger.process_transaction, htype, Ledger.process_chargeback, htx, hdis,
    hamt, Ledger.get_account_entry, hacc, hunlocked, Account.lock]

lemma withdrawal_insufficient_state (l : Ledger) (t : Transaction) (a : ℚ) (acc : Account)
    (hamt : t.amount = some a) (ha : 0 ≤ a)
    (hfresh : mapLookup l.transactions t.tx = none)
    (hacc : mapLookup l.accounts t.client = some acc)
    (hunlocked : acc.locked = false)
    (hlt : acc.available < a) :
    l.process_withdrawal t =
      ({ l with transactions := mapInsert l.transactions t.tx t },
        some (.InsufficientFunds a acc.available)) := by
  simp [Ledger.process_withdrawal, hamt, not_lt.mpr ha, Ledger.save_transaction,
    hfresh, hacc, hunlocked, sub_neg.mpr hlt]

lemma withdrawal_error_propagation (l : Ledger) (t : Transaction) (e : WithdrawalError)
    (htype : t.type = .Withdrawal)
    (herr : (l.process_withdrawal t).2 = some e)
    (hnif : ∀ w h, e ≠ .InsufficientFunds w h) :
    (l.process_transaction t).2 = some (.withdrawal e) := by
  cases e
  case InsufficientFunds w h => exact absurd rfl (hnif w h)
  all_goals simp [Ledger.process_transaction, htype, herr]

lemma process_transaction_withdrawal_fst (l : Ledger) (t : Transaction)
    (htype : t.type = .Withdrawal) :
    (l.process_transaction t).1 = (l.process_withdrawal t).1 := by
  simp only [Ledger.process_transaction, htype]
  split <;> rfl

lemma deposit_locked_state (l : Ledger) (t : Transaction) (a : ℚ) (acc : Account)
    (htype : t.type = .Deposit)
    (hamt : t.amount = some a) (ha : 0 ≤ a)
    (hfresh : mapLookup l.transactions t.tx = none)
    (hacc : mapLookup l.accounts t.client = some acc)
    (hlocked : acc.locked = true) :
    l.process_transaction t =
      ({ l with transactions := mapInsert l.transactions t.tx t },
       some (.deposit .AccountLocked)) := by
  simp [Ledger.process_transaction, htype, Ledger.process_deposit, hamt,
    not_lt.mpr ha, Ledger.save_transaction, hfresh, hacc, hlocked]

lemma withdrawal_locked_state (l : Ledger) (t : Transaction) (a : ℚ) (acc : Account)
    (htype : t.type = .Withdrawal)
    (hamt : t.amount = some a) (ha : 0 ≤ a)
    (hfresh : mapLookup l.transactions t.tx = none)
    (hacc : mapLookup l.accounts t.client = some acc)
    (hlocked : acc.locked = true) :
    l.process_transaction t =
      ({ l with transactions := mapInsert l.transactions t.tx t },
       some (.withdrawal .AccountLocked)) := by
  simp [Ledger.process_transaction, htype, Ledger.process_withdrawal, hamt,
    not_lt.mpr ha, Ledger.save_transaction, hfresh, hacc, hlocked]

lemma resolve_locked_state (l : Ledger) (t tx0 : Transaction) (a : ℚ) (acc : Account)
    (htype : t.type = .Resolve)
    (htx : mapLookup l.transactions t.tx = some tx0)
    (hamt : tx0.amount = some a)
    (hdis : t.tx ∈ l.disputed_transactions)
    (hacc : mapLookup l.accounts t.client = some acc)
    (hlocked : acc.locked = true) :
    l.process_transaction t = (l, some (.resolve .AccountLocked)) := by
  simp [Ledger.process_transaction, htype, Ledger.process_resolve, htx, hdis,
    hamt, Ledger.get_account_entry, hacc, hlocked, AccountError.toResolveError]

lemma chargeback_locked_state (l : Ledger) (t tx0 : Transaction) (a : ℚ) (acc : Account)
    (htype : t.type = .Chargeback)
    (htx : mapLookup l.transactions t.tx = some tx0)
    (hamt : tx0.amount = some a)
    (hdis : t.tx ∈ l.disputed_transactions)
    (hacc : mapLookup l.accounts t.client = some acc)
    (hlocked : acc.locked = true) :
    l.process_transaction t = (l, some (.chargeback .AccountLocked)) := by
  simp [Ledger.process_transaction, htype, Ledger.process_chargeback, htx, hdis,
    hamt, Ledger.get_account_entry, hacc, hlocked, AccountError.toChargebackError]

lemma dispute_missing_noop (l : Ledger) (t : Transaction)
    (htype : t.type = .Dispute)
    (htx : mapLookup l.transactions t.tx = none) :
    l.process_transaction t = (l, none) := by
  simp [Ledger.process_transaction, htype, Ledger.process_dispute, htx]

lemma resolve_noop (l : Ledger) (t : Transaction)
    (htype : t.type = .Resolve)
    (h : mapLookup l.transactions t.tx = none ∨
      t.tx ∉ l.disputed_transactions) :
    l.process_transaction t = (l, none) := by
  rcases h with h | h
  · simp [Ledger.process_transaction, htype, Ledger.process_resolve, h]
  · cases htx : mapLookup l.transactions t.tx <;>
      simp [Ledger.process_transaction, htype, Ledger.process_resolve, htx, h]

lemma chargeback_noop (l : Ledger) (t : Transaction)
    (htype : t.type = .Chargeback)
    (h : mapLookup l.transactions t.tx = none ∨
      t.tx ∉ l.disputed_transactions) :
    l.process_transaction t = (l, none) := by
  rcases h with h | h
  · simp [Ledger.process_transaction, htype, Ledger.process_chargeback, h]
  · cases htx : mapLookup l.transactions t.tx <;>
      simp [Ledger.process_transaction, htype, Ledger.process_chargeback, htx, h]

/-- A locked account is never mutated by any transaction: every handler
either touches a different client's entry, or reaches the locked account
only through the lock check and bails out before writing. -/
lemma locked_account_unchanged (l : Ledger) (t : Transaction) (c : Nat) (acc : Account)
    (hacc : mapLookup l.accounts c = some acc) (hlocked : acc.locked = true) :
    accountAt (l.process_transaction t).1 c = some acc := by
  rcases t with ⟨ty, tc, ttx, tam⟩
  by_cases hc : tc = c <;>
    cases hfresh : mapLookup l.transactions ttx <;>
    cases ty <;>
      simp only [Ledger.process_transaction, Ledger.process_deposit,
        Ledger.process_withdrawal, Ledger.process_dispute, Ledger.process_resolve,
        Ledger.process_chargeback, Ledger.save_transaction,
        Ledger.get_account_entry, hfresh, accountAt] <;>
      (repeat' split) <;>
      simp_all [accountAt, mapLookup_mapInsert_ne]

/-! ### Claim theorems -/

/-- Claim C1 (code bug): processing `dep1, dis1, dep2` succeeds with no
error, yet leaves account 1 with `available = 10`, `held = 10`,
`total = 0`: the engine does not preserve `total = available + held`,
because `Account::calculate_total` computes `available - held`. -/
theorem total_invariant_violated :
    Ledger.empty.process_transactions [dep1, dis1, dep2] = (L3, none) ∧
    accountAt L3 1 = some ⟨1, 10, 10, 0, false⟩ ∧
    ¬ totalInvariantHolds L3 := by
  refine ⟨run_to_L3, rfl, fun h => ?_⟩
  have := h (1, ⟨1, 10, 10, 0, false⟩) (by simp [L3])
  norm_num at this

/-- Claim C2 counterexample: starting from `L3` (reached by processing
`dep1, dis1, dep2`), the chargeback `cb1` meets every premise of the
claim (id 1 recorded with amount 10, disputed, account 1 unlocked), yet
afterwards id 1 is still in the disputed set, and `total` went from 0 to
10 rather than decreasing by the amount: 10 ≠ 0 - 10. -/
theorem chargeback_claim_counterexample :
    Ledger.empty.process_transactions [dep1, dis1, dep2] = (L3, none) ∧
    mapLookup L3.transactions 1 = some dep1 ∧
    dep1.amount = some 10 ∧
    1 ∈ L3.disputed_transactions ∧
    accountAt L3 1 = some ⟨1, 10, 10, 0, false⟩ ∧
    L3.process_transaction cb1 = (L4, none) ∧
    1 ∈ L4.disputed_transactions ∧
    accountAt L4 1 = some ⟨1, 10, 0, 10, true⟩ ∧
    (10 : ℚ) ≠ 0 - 10 := by
  refine ⟨run_to_L3, rfl, rfl, by simp [L3], rfl, step_cb1, by simp [L4], rfl, by norm_num⟩

/-- Claim C2 (amended): on a chargeback whose referenced id is recorded
with an amount, currently disputed, and whose named account exists and is
unlocked, the engine decreases `held` by the amount, recomputes
`total = available - held` with the updated `held`, and locks the account;
the transaction history is untouched and the disputed set is left
unchanged — the referenced id is *not* removed from it. -/
theorem chargeback_success_spec (l : Ledger) (t tx0 : Transaction) (a : ℚ) (acc : Account)
    (htype : t.type = .Chargeback)
    (htx : mapLookup l.transactions t.tx = some tx0)
    (hamt : tx0.amount = some a)
    (hdis : t.tx ∈ l.disputed_transactions)
    (hacc : mapLookup l.accounts t.client = some acc)
    (hunlocked : acc.locked = false) :
    accountAt (l.process_transaction t).1 t.client =
      some ⟨acc.client, acc.available, acc.held - a,
        acc.available - (acc.held - a), true⟩ ∧
    (l.process_transaction t).2 = none ∧
    (l.process_transaction t).1.disputed_transactions = l.disputed_transactions ∧
    (l.process_transaction t).1.transactions = l.transactions := by
  rw [chargeback_success_state l t tx0 a acc htype htx hamt hdis hacc hunlocked]
  exact ⟨by simp [accountAt, mapLookup_mapInsert_self], rfl, rfl, rfl⟩

/-- Witness: the amended chargeback claim evaluated at the concrete state
`L2` and the chargeback `cb1`. -/
theorem chargeback_success_spec_witness :
    accountAt (L2.process_transaction cb1).1 1 =
      some ⟨1, 0, 10 - 10, 0 - (10 - 10), true⟩ ∧
    (L2.process_transaction cb1).2 = none ∧
    (L2.process_transaction cb1).1.disputed_transactions = L2.disputed_transactions ∧
    (L2.process_transaction cb1).1.transactions = L2.transactions :=
  chargeback_success_spec L2 cb1 dep1 10 ⟨1, 0, 10, 10, false⟩ rfl rfl rfl
    (by decide) rfl rfl

/-- Claim C3 counterexample: after `dep1, dis1` the referenced id 1 is
already disputed, hence not in the `Recorded` state the claim requires;
the claim says a further dispute of id 1 must leave all state unchanged,
but the engine applies it again, moving another 10 from available to
held. -/
theorem second_dispute_not_noop :
    Ledger.empty.process_transactions [dep1, dis1] = (L2, none) ∧
    1 ∈ L2.disputed_transactions ∧
    L2.process_transaction dis1 = (L5, none) ∧
    L5 ≠ L2 := by
  refine ⟨run_to_L2, by simp [L2], step_dis1_again, ?_⟩
  simp only [L5, L2, ne_eq, Ledger.mk.injEq]
  intro h
  have := h.1
  simp [Account.mk.injEq] at this

/-- Claim C3 (amended): a Dispute whose referenced id is absent from the
history, and a Resolve or Chargeback whose referenced id is absent from
the history or not currently in the disputed set, return Ok and leave the
ledger untouched.  (A Dispute whose referenced id is recorded but already
disputed is applied again, not ignored: `process_dispute` never consults
the disputed set.) -/
theorem reference_mismatch_noop (l : Ledger) (t : Transaction) :
    (t.type = .Dispute → mapLookup l.transactions t.tx = none →
      l.process_transaction t = (l, none)) ∧
    (t.type = .Resolve →
      (mapLookup l.transactions t.tx = none ∨ t.tx ∉ l.disputed_transactions) →
      l.process_transaction t = (l, none)) ∧
    (t.type = .Chargeback →
      (mapLookup l.transactions t.tx = none ∨ t.tx ∉ l.disputed_transactions) →
      l.process_transaction t = (l, none)) :=
  ⟨fun h1 h2 => dispute_missing_noop l t h1 h2,
   fun h1 h2 => resolve_noop l t h1 h2,
   fun h1 h2 => chargeback_noop l t h1 h2⟩

/-- Witness: the no-op claim evaluated on a dispute of an unknown id, a
resolve of an unknown id, and a chargeback of a recorded but undisputed
id. -/
theorem reference_mismatch_noop_witness :
    Ledger.empty.process_transaction dis1 = (Ledger.empty, none) ∧
    Ledger.empty.process_transaction res1 = (Ledger.empty, none) ∧
    L1.process_transaction cb1 = (L1, none) :=
  ⟨(reference_mismatch_noop Ledger.empty dis1).1 rfl rfl,
   (reference_mismatch_noop Ledger.empty res1).2.1 rfl (Or.inl rfl),
   (reference_mismatch_noop L1 cb1).2.2 rfl (Or.inr (by decide))⟩

/-- Claim C4: a dispute whose referenced id is recorded with amount `a`
moves `a` from `available` to `held` of the account named by the dispute,
leaves `total` (and the rest of the account) unchanged, and inserts the
referenced id into the disputed set; if the named account is missing or
locked it fails with `NoSuchAccount` or `AccountLocked` respectively. -/
theorem dispute_spec (l : Ledger) (t tx0 : Transaction) (a : ℚ)
    (htype : t.type = .Dispute)
    (htx : mapLookup l.transactions t.tx = some tx0)
    (hamt : tx0.amount = some a) :
    (∀ acc, mapLookup l.accounts t.client = some acc → acc.locked = false →
      l.process_transaction t =
        ({ l with
             accounts := mapInsert l.accounts t.client
               { acc with available := acc.available - a, held := acc.held + a },
             disputed_transactions := setInsert l.disputed_transactions t.tx },
         none)) ∧
    (mapLookup l.accounts t.client = none →
      l.process_transaction t = (l, some (.dispute (.NoSuchAccount t.client)))) ∧
    (∀ acc, mapLookup l.accounts t.client = some acc → acc.locked = true →
      l.process_transaction t = (l, some (.dispute .AccountLocked))) :=
  ⟨fun acc hacc hu => dispute_success_state l t tx0 a acc htype htx hamt hacc hu,
   fun hacc => dispute_no_account_state l t tx0 a htype htx hamt hacc,
   fun acc hacc hl => dispute_locked_state l t tx0 a acc htype htx hamt hacc hl⟩

/-- Witness: the dispute claim evaluated at the concrete state `L1` and
the dispute `dis1`. -/
theorem dispute_spec_witness :
    L1.process_transaction dis1 =
      ({ L1 with
           accounts := mapInsert L1.accounts 1 ⟨1, 10 - 10, 0 + 10, 10, false⟩,
           disputed_transactions := setInsert L1.disputed_transactions 1 },
       none) :=
  (dispute_spec L1 dis1 dep1 10 rfl rfl rfl).1 ⟨1, 10, 0, 10, false⟩ rfl rfl

/-- Claim C5: a withdrawal with a present nonnegative amount, a fresh id,
and an existing unlocked account with insufficient available funds fails
with `InsufficientFunds (requested, available)`, leaves the account's
balances untouched (only the transaction history grows), and
`process_transaction` swallows exactly this error, returning Ok; every
other withdrawal error is propagated. -/
theorem withdrawal_insufficient_spec (l : Ledger) (t : Transaction) (a : ℚ) (acc : Account)
    (htype : t.type = .Withdrawal)
    (hamt : t.amount = some a) (ha : 0 ≤ a)
    (hfresh : mapLookup l.transactions t.tx = none)
    (hacc : mapLookup l.accounts t.client = some acc)
    (hunlocked : acc.locked = false)
    (hlt : acc.available < a) :
    l.process_withdrawal t =
      ({ l with transactions := mapInsert l.transactions t.tx t },
       some (.InsufficientFunds a acc.available)) ∧
    accountAt (l.process_withdrawal t).1 t.client = some acc ∧
    l.process_transaction t =
      ({ l with transactions := mapInsert l.transactions t.tx t }, none) ∧
    (∀ (l' : Ledger) (t' : Transaction) (e : WithdrawalError),
      t'.type = .Withdrawal → (l'.process_withdrawal t').2 = some e →
      (∀ w h, e ≠ .InsufficientFunds w h) →
      (l'.process_transaction t').2 = some (.withdrawal e)) := by
  have hw := withdrawal_insufficient_state l t a acc hamt ha hfresh hacc hunlocked hlt
  refine ⟨hw, ?_, ?_,
    fun l' t' e h1 h2 h3 => withdrawal_error_propagation l' t' e h1 h2 h3⟩
  · rw [hw]
    simpa [accountAt] using hacc
  · simp [Ledger.process_transaction, htype, hw]

/-- Witness: the insufficient-funds claim evaluated at the concrete state
`W5` (5 available) and the withdrawal `wd5` (of 10). -/
theorem withdrawal_insufficient_spec_witness :
    W5.process_withdrawal wd5 =
      ({ W5 with transactions := mapInsert W5.transactions 7 wd5 },
       some (.InsufficientFunds 10 5)) ∧
    accountAt (W5.process_withdrawal wd5).1 1 = some ⟨1, 5, 0, 5, false⟩ ∧
    W5.process_transaction wd5 =
      ({ W5 with transactions := mapInsert W5.transactions 7 wd5 }, none) := by
  have h := withdrawal_insufficient_spec W5 wd5 10 ⟨1, 5, 0, 5, false⟩ rfl rfl
    (by decide) rfl rfl rfl (by decide)
  exact ⟨h.1, h.2.1, h.2.2.1⟩

/-- Claim C6: a deposit or withdrawal with a present nonnegative amount
whose id is already recorded fails with `DuplicateTransaction` and
returns the ledger completely unchanged: no balance mutation, no account
creation, history and disputed set untouched. -/
theorem duplicate_transaction_spec (l : Ledger) (t tx0 : Transaction) (a : ℚ)
    (hamt : t.amount = some a) (ha : 0 ≤ a)
    (hdup : mapLookup l.transactions t.tx = some tx0) :
    (t.type = .Deposit →
      l.process_transaction t = (l, some (.deposit (.DuplicateTx ⟨t.tx⟩)))) ∧
    (t.type = .Withdrawal →
      l.process_transaction t = (l, some (.withdrawal (.DuplicateTx ⟨t.tx⟩)))) := by
  constructor <;> intro htype <;>
    simp [Ledger.process_transaction, htype, Ledger.process_deposit,
      Ledger.process_withdrawal, hamt, not_lt.mpr ha, Ledger.save_transaction, hdup]

/-- Witness: the duplicate-id claim evaluated at the concrete state `L1`
(id 1 recorded) and the replays `dup6`/`wdup6` of id 1. -/
theorem duplicate_transaction_spec_witness :
    L1.process_transaction dup6 = (L1, some (.deposit (.DuplicateTx ⟨1⟩))) ∧
    L1.process_transaction wdup6 = (L1, some (.withdrawal (.DuplicateTx ⟨1⟩))) :=
  ⟨(duplicate_transaction_spec L1 dup6 dep1 5 rfl (by decide) rfl).1 rfl,
   (duplicate_transaction_spec L1 wdup6 dep1 5 rfl (by decide) rfl).2 rfl⟩

/-- Claim C7: a locked account is terminal.  No transaction of any kind
ever changes it (in particular nothing resets `locked` to `false`), and
each of the five handlers, when aimed at the locked account with its
other preconditions satisfied, fails with its `AccountLocked` error
(deposits and withdrawals still record the fresh transaction id first). -/
theorem locked_account_spec (l : Ledger) (c : Nat) (acc : Account)
    (hacc : mapLookup l.accounts c = some acc) (hlocked : acc.locked = true) :
    (∀ t, accountAt (l.process_transaction t).1 c = some acc) ∧
    (∀ t a, t.client = c → t.type = .Deposit → t.amount = some a → 0 ≤ a →
      mapLookup l.transactions t.tx = none →
      l.process_transaction t =
        ({ l with transactions := mapInsert l.transactions t.tx t },
         some (.deposit .AccountLocked))) ∧
    (∀ t a, t.client = c → t.type = .Withdrawal → t.amount = some a → 0 ≤ a →
      mapLookup l.transactions t.tx = none →
      l.process_transaction t =
        ({ l with transactions := mapInsert l.transactions t.tx t },
         some (.withdrawal .AccountLocked))) ∧
    (∀ t tx0 a, t.client = c → t.type = .Dispute →
      mapLookup l.transactions t.tx = some tx0 → tx0.amount = some a →
      l.process_transaction t = (l, some (.dispute .AccountLocked))) ∧
    (∀ t tx0 a, t.client = c → t.type = .Resolve →
      mapLookup l.transactions t.tx = some tx0 → tx0.amount = some a →
      t.tx ∈ l.disputed_transactions →
      l.process_transaction t = (l, some (.resolve .AccountLocked))) ∧
    (∀ t tx0 a, t.client = c → t.type = .Chargeback →
      mapLookup l.transactions t.tx = some tx0 → tx0.amount = some a →
      t.tx ∈ l.disputed_transactions →
      l.process_transaction t = (l, some (.chargeback .AccountLocked))) :=
  ⟨fun t => locked_account_unchanged l t c acc hacc hlocked,
   fun t a h1 h2 h3 h4 h5 =>
     deposit_locked_state l t a acc h2 h3 h4 h5 (by rw [h1]; exact hacc) hlocked,
   fun t a h1 h2 h3 h4 h5 =>
     withdrawal_locked_state l t a acc h2 h3 h4 h5 (by rw [h1]; exact hacc) hlocked,
   fun t tx0 a h1 h2 h3 h4 =>
     dispute_locked_state l t tx0 a acc h2 h3 h4 (by rw [h1]; exact hacc) hlocked,
   fun t tx0 a h1 h2 h3 h4 h5 =>
     resolve_locked_state l t tx0 a acc h2 h3 h4 h5 (by rw [h1]; exact hacc) hlocked,
   fun t tx0 a h1 h2 h3 h4 h5 =>
     chargeback_locked_state l t tx0 a acc h2 h3 h4 h5 (by rw [h1]; exact hacc) hlocked⟩

/-- Witness: the locked-account claim evaluated at the concrete locked
state `W7` and the fresh deposit `dep7`. -/
theorem locked_account_spec_witness :
    accountAt (W7.process_transaction dep7).1 1 = some ⟨1, 3, 4, 7, true⟩ ∧
    W7.process_transaction dep7 =
      ({ W7 with transactions := mapInsert W7.transactions 9 dep7 },
       some (.deposit .AccountLocked)) := by
  have h := locked_account_spec W7 1 ⟨1, 3, 4, 7, true⟩ rfl rfl
  exact ⟨h.1 dep7, h.2.1 dep7 10 rfl rfl rfl (by decide) rfl⟩

/-- Claim C8 counterexample: depositing 8.675309 stores the rounded
86753/10000, but disputing that deposit subtracts the *unrounded*
recorded amount, leaving `available = -9/1000000`, which is not a
multiple of 1/10,000 — so not every monetary write by the five handlers
is rounded. -/
theorem unrounded_dispute_write :
    Ledger.empty.process_transactions [jdep, dis1] = (J2, none) ∧
    accountAt J2 1 = some ⟨1, -9/1000000, 8675309/1000000, 86753/10000, false⟩ ∧
    ¬ isTenThousandth (-9/1000000 : ℚ) := by
  refine ⟨run_to_J2, rfl, ?_⟩
  rintro ⟨n, hn⟩
  simp only [PRECISION] at hn
  have h100 : ((100 * n : ℤ) : ℚ) = ((-9 : ℤ) : ℚ) := by push_cast; linarith
  have h9 : (100 * n : ℤ) = -9 := Int.cast_injective h100
  omega

/-- Claim C8 (amended): `Account::round` (used by the deposit and
withdrawal handlers for every balance they write, including account
creation) rounds to the nearest 1/10,000 with ties away from zero, is
idempotent, and always produces a multiple of 1/10,000; hence all
balances written by deposits and withdrawals are multiples of 1/10,000
whenever the untouched `held` component already is.  (The dispute,
resolve and chargeback handlers write unrounded values, as the
counterexample shows.) -/
theorem rounding_spec :
    (∀ v, Account.round (Account.round v) = Account.round v) ∧
    (∀ v, isTenThousandth (Account.round v)) ∧
    (∀ (acc : Account) (amt : ℚ), isTenThousandth acc.held →
      isTenThousandth (acc.deposit_funds amt).available ∧
      isTenThousandth (acc.deposit_funds amt).held ∧
      isTenThousandth (acc.deposit_funds amt).total ∧
      isTenThousandth (acc.withdraw_funds amt).available ∧
      isTenThousandth (acc.withdraw_funds amt).held ∧
      isTenThousandth (acc.withdraw_funds amt).total) ∧
    (∀ c b, isTenThousandth (Account.new_account c b).available ∧
      isTenThousandth (Account.new_account c b).held ∧
      isTenThousandth (Account.new_account c b).total) := by
  refine ⟨Account.round_round, Account.round_isTenThousandth,
    fun acc amt h => ?_, fun c b => ?_⟩
  · refine ⟨?_, ?_, ?_, ?_, ?_, ?_⟩ <;>
      simp [Account.deposit_funds, Account.withdraw_funds,
        Account.calculate_total, Account.round_isTenThousandth, h]
  · refine ⟨?_, ?_, ?_⟩ <;>
      simp [Account.new_account, Account.round_isTenThousandth,
        isTenThousandth_zero]

/-- Witness: rounding idempotence at 10, and the deposit handler's write
at a concrete account. -/
theorem rounding_spec_witness :
    Account.round (Account.round 10) = Account.round 10 ∧
    isTenThousandth ((⟨1, 0, 0, 0, false⟩ : Account).deposit_funds 10).available :=
  ⟨rounding_spec.1 10,
   (rounding_spec.2.2.1 ⟨1, 0, 0, 0, false⟩ 10 isTenThousandth_zero).1⟩

/-- Claim C9: a dispute mutates the account named by its own `client`
field — not the account of the transaction it references — and every
other client's account is untouched. -/
theorem dispute_client_field_spec (l : Ledger) (t tx0 : Transaction) (a : ℚ) (acc : Account)
    (htype : t.type = .Dispute)
    (htx : mapLookup l.transactions t.tx = some tx0)
    (hamt : tx0.amount = some a)
    (hacc : mapLookup l.accounts t.client = some acc)
    (hunlocked : acc.locked = false) :
    accountAt (l.process_transaction t).1 t.client =
      some { acc with available := acc.available - a, held := acc.held + a } ∧
    (∀ c, c ≠ t.client → accountAt (l.process_transaction t).1 c = accountAt l c) := by
  rw [dispute_success_state l t tx0 a acc htype htx hamt hacc hunlocked]
  constructor
  · simp [accountAt, mapLookup_mapInsert_self]
  · intro c hcne
    simp [accountAt, mapLookup_mapInsert_ne _ _ _ _ (Ne.symm hcne)]

/-- Witness: in `W9`, the dispute `dis9` (client 2 referencing client 1's
deposit of 10) moves 10 inside client 2's account while client 1's
account is unchanged. -/
theorem dispute_client_field_spec_witness :
    accountAt (W9.process_transaction dis9).1 2 = some ⟨2, 5 - 10, 0 + 10, 5, false⟩ ∧
    accountAt (W9.process_transaction dis9).1 1 = accountAt W9 1 := by
  have h := dispute_client_field_spec W9 dis9 dep1 10 ⟨2, 5, 0, 5, false⟩ rfl rfl rfl rfl rfl
  exact ⟨h.1, h.2 1 (by decide)⟩

/-- Claim C10: a withdrawal with a present nonnegative amount and a fresh
id that then fails (`InsufficientFunds`, `AccountLocked` or
`NoSuchAccount` — the only failures still possible) is nevertheless
persisted into the transaction history first, both at the
`process_withdrawal` level and after `process_transaction`, so its id is
consumed for future duplicate checks and a later dispute can look it
up. -/
theorem failed_withdrawal_recorded (l : Ledger) (t : Transaction) (a : ℚ) (e : WithdrawalError)
    (htype : t.type = .Withdrawal)
    (hamt : t.amount = some a) (ha : 0 ≤ a)
    (hfresh : mapLookup l.transactions t.tx = none)
    (herr : (l.process_withdrawal t).2 = some e) :
    mapLookup (l.process_withdrawal t).1.transactions t.tx = some t ∧
    mapLookup (l.process_transaction t).1.transactions t.tx = some t ∧
    ((∃ w h, e = .InsufficientFunds w h) ∨ e = .AccountLocked ∨
      e = .NoSuchAccount t.client) := by
  have hnneg : ¬ a < 0 := not_lt.mpr ha
  have hfst := process_transaction_withdrawal_fst l t htype
  cases hacc : mapLookup l.accounts t.client with
  | none =>
    have hw : l.process_withdrawal t =
        ({ l with transactions := mapInsert l.transactions t.tx t },
         some (.NoSuchAccount t.client)) := by
      simp [Ledger.process_withdrawal, hamt, hnneg, Ledger.save_transaction,
        hfresh, hacc]
    rw [hw] at herr
    simp only [Prod.snd] at herr
    rw [Option.some_inj] at herr
    subst herr
    exact ⟨by rw [hw]; simp [mapLookup_mapInsert_self],
      by rw [hfst, hw]; simp [mapLookup_mapInsert_self],
      Or.inr (Or.inr rfl)⟩
  | some account =>
    by_cases hlk : account.locked
    · have hw : l.process_withdrawal t =
          ({ l with transactions := mapInsert l.transactions t.tx t },
           some .AccountLocked) := by
        simp [Ledger.process_withdrawal, hamt, hnneg, Ledger.save_transaction,
          hfresh, hacc, hlk]
      rw [hw] at herr
      simp only [Prod.snd] at herr
      rw [Option.some_inj] at herr
      subst herr
      exact ⟨by rw [hw]; simp [mapLookup_mapInsert_self],
        by rw [hfst, hw]; simp [mapLookup_mapInsert_self],
        Or.inr (Or.inl rfl)⟩
    · by_cases hins : account.available - a < 0
      · have hw : l.process_withdrawal t =
            ({ l with transactions := mapInsert l.transactions t.tx t },
             some (.InsufficientFunds a account.available)) := by
          simp [Ledger.process_withdrawal, hamt, hnneg, Ledger.save_transaction,
            hfresh, hacc, hlk, hins]
        rw [hw] at herr
        simp only [Prod.snd] at herr
        rw [Option.some_inj] at herr
        subst herr
        exact ⟨by rw [hw]; simp [mapLookup_mapInsert_self],
          by rw [hfst, hw]; simp [mapLookup_mapInsert_self],
          Or.inl ⟨a, account.available, rfl⟩⟩
      · have hw : (l.process_withdrawal t).2 = none := by
          simp [Ledger.process_withdrawal, hamt, hnneg, Ledger.save_transaction,
            hfresh, hacc, hlk, hins]
        rw [hw] at herr
        exact absurd herr (by simp)

/-- Witness: the failed-withdrawal persistence claim evaluated on a
withdrawal naming an unknown client. -/
theorem failed_withdrawal_recorded_witness :
    mapLookup (Ledger.empty.process_withdrawal wd10).1.transactions 7 = some wd10 ∧
    mapLookup (Ledger.empty.process_transaction wd10).1.transactions 7 = some wd10 := by
  have h := failed_withdrawal_recorded Ledger.empty wd10 10 (.NoSuchAccount 5)
    rfl rfl (by decide) rfl rfl
  exact ⟨h.1, h.2.1⟩

end Banking
